import Mathlib

/-!
Verification of the ikbr2 trading-bot core against its specification.

The Python modules are shallowly embedded as executable Lean definitions:
  * `src/connectors/ibkr/client.py`      — request-id counter, connection lifecycle
  * `src/connectors/ibkr/order_manager.py` — order / execution / commission tracking
  * `src/connectors/ibkr/data_feed.py`   — market-data subscriptions and last-price polling
  * `src/data/storage/database_storage.py` — harvest storage, quality scoring, integrity checks

Python floats are modelled as exact rationals, `datetime` values as integer epoch
seconds supplied explicitly by the caller (`now` parameters), dictionaries keyed by
id as association lists, and the relational tables as lists of row structures.
-/

namespace IKBR

/-- Association-list lookup: first binding wins, like a Python dict keyed by `k`. -/
def lookupK {α β : Type} [DecidableEq α] (m : List (α × β)) (k : α) : Option β :=
  match m with
  | [] => none
  | (k', v) :: rest => if k' = k then some v else lookupK rest k

/-- Association-list store (`d[k] = v`): replace the existing binding, else append. -/
def setK {α β : Type} [DecidableEq α] (m : List (α × β)) (k : α) (v : β) :
    List (α × β) :=
  match m with
  | [] => [(k, v)]
  | (k', v') :: rest => if k' = k then (k, v) :: rest else (k', v') :: setK rest k v

theorem lookupK_setK_self {α β : Type} [DecidableEq α] (m : List (α × β)) (k : α) (v : β) :
    lookupK (setK m k v) k = some v := by
  induction m with
  | nil => simp [lookupK, setK]
  | cons p rest ih =>
    obtain ⟨k', v'⟩ := p
    by_cases h : k' = k
    · simp [lookupK, setK, h]
    · simp [lookupK, setK, h, ih]

theorem lookupK_setK_other {α β : Type} [DecidableEq α] (m : List (α × β)) (k k' : α)
    (v : β) (h : k' ≠ k) : lookupK (setK m k v) k' = lookupK m k' := by
  have hne : k ≠ k' := Ne.symm h
  induction m with
  | nil => simp [lookupK, setK, hne]
  | cons p rest ih =>
    obtain ⟨k0, v0⟩ := p
    by_cases h0 : k0 = k
    · subst h0
      simp [lookupK, setK, hne]
    · simp only [setK, if_neg h0, lookupK]
      by_cases h1 : k0 = k'
      · simp [h1]
      · simp [h1, ih]

/-! ## Order manager (`src/connectors/ibkr/order_manager.py`)

`IBKROrderManager` keeps `self.orders : dict[int, dict]` and
`self.executions : dict[str, dict]`, guarded by one lock; each callback below is a
single critical section, so the lock is modelled by treating each handler as one
atomic state transformation. -/

/-- One execution record (`exec_details` built in `execDetails`, lines 375-389).
The commission fields are absent until `commissionReport` fills them in. -/
structure ExecRec where
  exec_id : String
  order_id : Int
  time : String
  account : String
  exchange : String
  side : String
  shares : ℚ
  price : ℚ
  perm_id : Int
  client_id : Int
  liquidation : Int
  cum_qty : ℚ
  avg_price : ℚ
  commission : Option ℚ
  commission_currency : Option String
  realized_pnl : Option ℚ
  deriving Repr, DecidableEq

/-- One order record (the dict stored in `self.orders`).  `contract`/`order` hold
just the traded symbol and total quantity of the originals; they are `none` for a
record synthesized from a status callback for an unknown id (lines 333-343). -/
structure OrderRec where
  contract : Option String
  order : Option ℚ
  status : String
  filled_quantity : ℚ
  avg_fill_price : ℚ
  remaining_quantity : ℚ
  last_update_time : Int
  is_complete : Bool
  executions : List ExecRec
  deriving Repr, DecidableEq

/-- The order-tracking state of `IBKROrderManager`. -/
structure OMState where
  orders : List (Int × OrderRec)
  executions : List (String × ExecRec)
  deriving Repr, DecidableEq

/-- The statuses the handler treats as completing an order
(`status in ['Filled', 'Cancelled', 'ApiCancelled']`, lines 341 and 352). -/
def completingStatuses : List String := ["Filled", "Cancelled", "ApiCancelled"]

/-- `place_order` bookkeeping (lines 89-100): a fresh record with status
`Created`, zero fills and `is_complete = False`. -/
def placeOrderTrack (s : OMState) (order_id : Int) (symbol : String)
    (totalQuantity : ℚ) (now : Int) : OMState :=
  let rec0 : OrderRec :=
    { contract := some symbol
      order := some totalQuantity
      status := "Created"
      filled_quantity := 0
      avg_fill_price := 0
      remaining_quantity := totalQuantity
      last_update_time := now
      is_complete := false
      executions := [] }
  { s with orders := setK s.orders order_id rec0 }

/-- `orderStatus` callback (lines 311-356): upsert keyed by order id.  An unknown
id is synthesized into a new record; a known id is updated *unconditionally* —
there is no guard on the previously stored status. -/
def orderStatusCB (s : OMState) (order_id : Int) (status : String)
    (filled remaining avg_fill_price : ℚ) (now : Int) : OMState :=
  match lookupK s.orders order_id with
  | none =>
      let rec0 : OrderRec :=
        { contract := none
          order := none
          status := status
          filled_quantity := filled
          avg_fill_price := avg_fill_price
          remaining_quantity := remaining
          last_update_time := now
          is_complete := completingStatuses.contains status
          executions := [] }
      { s with orders := setK s.orders order_id rec0 }
  | some rec =>
      let rec1 : OrderRec :=
        { rec with
          status := status
          filled_quantity := filled
          avg_fill_price := avg_fill_price
          remaining_quantity := remaining
          last_update_time := now
          is_complete := completingStatuses.contains status }
      { s with orders := setK s.orders order_id rec1 }

/-- `execDetails` callback (lines 365-409): store the execution (commission
fields absent) and append it to the parent order's execution list if tracked. -/
def execDetailsCB (s : OMState) (order_id : Int) (exec_id : String)
    (time account exchange side : String) (shares price : ℚ)
    (perm_id client_id liquidation : Int) (cum_qty avg_price : ℚ) : OMState :=
  let exec_details : ExecRec :=
    { exec_id := exec_id
      order_id := order_id
      time := time
      account := account
      exchange := exchange
      side := side
      shares := shares
      price := price
      perm_id := perm_id
      client_id := client_id
      liquidation := liquidation
      cum_qty := cum_qty
      avg_price := avg_price
      commission := none
      commission_currency := none
      realized_pnl := none }
  let s1 : OMState := { s with executions := setK s.executions exec_id exec_details }
  match lookupK s1.orders order_id with
  | some rec =>
      let rec1 : OrderRec := { rec with executions := rec.executions ++ [exec_details] }
      { s1 with orders := setK s1.orders order_id rec1 }
  | none => s1

/-- `commissionReport` callback (lines 411-423): attach commission data to the
execution record if — and only if — the execution id is already known. -/
def commissionReportCB (s : OMState) (exec_id : String) (commission : ℚ)
    (currency : String) (realizedPNL : ℚ) : OMState :=
  match lookupK s.executions exec_id with
  | some ex =>
      let ex1 : ExecRec :=
        { ex with
          commission := some commission
          commission_currency := some currency
          realized_pnl := some realizedPNL }
      { s with executions := setK s.executions exec_id ex1 }
  | none => s

/-! ## Request-id counter (`src/connectors/ibkr/client.py`, lines 92-105 and 194-199)

`get_next_req_id` increments `self._req_id` under `self._req_id_lock` and returns
it; the `nextValidId` transport callback overwrites `self._req_id` with the
gateway-supplied value under the same lock.  Both critical sections are modelled
as atomic events of a trace. -/

/-- The id-counter portion of `IBKRClient` state (`self._req_id`). -/
structure ClientIdState where
  req_id : Int
  deriving Repr, DecidableEq

/-- `get_next_req_id` (lines 101-105). -/
def getNextReqId (s : ClientIdState) : Int × ClientIdState :=
  (s.req_id + 1, ⟨s.req_id + 1⟩)

/-- `nextValidId` callback (lines 194-199): `self._req_id = order_id`,
unconditionally — the counter can move backwards. -/
def nextValidIdCB (s : ClientIdState) (order_id : Int) : ClientIdState :=
  ⟨order_id⟩

/-- One event of an interleaving of id requests and transport callbacks. -/
inductive ReqEvent
  | getId
  | nextValid (order_id : Int)
  deriving Repr, DecidableEq

/-- Run a trace of events, collecting the ids handed out by `get_next_req_id`. -/
def runReqEvents (s : ClientIdState) : List ReqEvent → List Int × ClientIdState
  | [] => ([], s)
  | ReqEvent.getId :: rest =>
      let (i, s1) := getNextReqId s
      let (is, s2) := runReqEvents s1 rest
      (i :: is, s2)
  | ReqEvent.nextValid n :: rest => runReqEvents (nextValidIdCB s n) rest

/-! ## Connection lifecycle (`src/connectors/ibkr/client.py`, lines 107-187)

The methods `connect_and_run`, `_run_client`, `connectionClosed` and
`disconnect_and_stop` are cut at their shared-state accesses into atomic program
points, one per thread; an interleaving is a list of `(thread, choice)` labels.
`choice` resolves environment nondeterminism (whether `run()` raises, whether the
acknowledgement arrives before the wait loop's deadline).  A thread sitting at
`carWait` has called `self.connect(...)` and is still waiting on the
acknowledgement: a connection attempt in progress. -/

/-- Program points of the connection-lifecycle code. -/
inductive TPC
  /-- inside `self.run()` (line 142) -/
  | rcRun
  /-- `_run_client` except-branch: `self.connected = False` (line 145) -/
  | rcExceptDisc
  /-- `_run_client`: `if self.auto_reconnect` (line 148) -/
  | rcCheck
  /-- `_run_client`: `time.sleep(5)` before reconnecting (line 150) -/
  | rcSleep
  /-- `connectionClosed` entry: `self.connected = False` (line 180) -/
  | ccEntry
  /-- `connectionClosed`: `if self.auto_reconnect and ...` (line 184) -/
  | ccCheck
  /-- `connectionClosed`: `time.sleep(5)` before reconnecting (line 186) -/
  | ccSleep
  /-- `connect_and_run` entry: `if self.connected: return` (line 109) -/
  | carEntry
  /-- `connect_and_run`: `self.connect(...)` + thread start (lines 121-125) -/
  | carConnect
  /-- `connect_and_run`: wait loop for the acknowledgement (lines 128-130) -/
  | carWait
  /-- `connect_and_run`: timeout branch, `self.disconnect()` + raise (lines 132-135) -/
  | carTimeout
  /-- `disconnect_and_stop` entry: save and clear `auto_reconnect` (lines 156-157) -/
  | dsEntry
  /-- `disconnect_and_stop`: close the transport if connected (lines 159-161) -/
  | dsClose
  /-- `disconnect_and_stop`: join the connection thread (lines 164-165) -/
  | dsJoin
  /-- `disconnect_and_stop`: restore `auto_reconnect` (line 168) -/
  | dsRestore
  /-- thread finished (returned or unwound on an exception) -/
  | done
  deriving Repr, DecidableEq

/-- Shared state plus the program point of every thread.  `ds_saved` models the
local `old_auto_reconnect` of `disconnect_and_stop` (one deliberate disconnect at
a time, as in the source's shutdown path). -/
structure CSt where
  auto_reconnect : Bool
  connected : Bool
  ds_saved : Bool
  threads : List TPC
  deriving Repr, DecidableEq

/-- Replace thread `tid`'s program point. -/
def setPC (ts : List TPC) (tid : Nat) (pc : TPC) : List TPC :=
  ts.set tid pc

/-- One atomic step of thread `tid`; `none` when the label is not enabled. -/
def threadStep (s : CSt) (tid : Nat) (choice : Nat) : Option CSt :=
  match s.threads.get? tid with
  | none => none
  | some pc =>
    match pc with
    | TPC.rcRun =>
        -- 0: `self.run()` raises (connection failure) → except branch;
        -- 1: the transport closes and delivers `connectionClosed` on this thread;
        -- 2: `self.run()` returns normally.
        if choice = 0 then some { s with threads := setPC s.threads tid TPC.rcExceptDisc }
        else if choice = 1 then some { s with threads := setPC s.threads tid TPC.ccEntry }
        else if choice = 2 then some { s with threads := setPC s.threads tid TPC.done }
        else none
    | TPC.rcExceptDisc =>
        some { s with connected := false, threads := setPC s.threads tid TPC.rcCheck }
    | TPC.rcCheck =>
        let pc1 := if s.auto_reconnect then TPC.rcSleep else TPC.done
        some { s with threads := setPC s.threads tid pc1 }
    | TPC.rcSleep =>
        some { s with threads := setPC s.threads tid TPC.carEntry }
    | TPC.ccEntry =>
        some { s with connected := false, threads := setPC s.threads tid TPC.ccCheck }
    | TPC.ccCheck =>
        let pc1 := if s.auto_reconnect then TPC.ccSleep else TPC.done
        some { s with threads := setPC s.threads tid pc1 }
    | TPC.ccSleep =>
        some { s with threads := setPC s.threads tid TPC.carEntry }
    | TPC.carEntry =>
        let pc1 := if s.connected then TPC.done else TPC.carConnect
        some { s with threads := setPC s.threads tid pc1 }
    | TPC.carConnect =>
        -- `self.connect(...)` issues the attempt and spawns a fresh client thread.
        some { s with threads := setPC s.threads tid TPC.carWait ++ [TPC.rcRun] }
    | TPC.carWait =>
        -- 0: still waiting; 1: acknowledgement observed; 2: deadline reached.
        if choice = 0 then some s
        else if choice = 1 then
          if s.connected then some { s with threads := setPC s.threads tid TPC.done }
          else none
        else if choice = 2 then
          if s.connected then none
          else some { s with threads := setPC s.threads tid TPC.carTimeout }
        else none
    | TPC.carTimeout =>
        -- `self.disconnect()` then `raise ConnectionError`: the frame unwinds.
        some { s with threads := setPC s.threads tid TPC.done }
    | TPC.dsEntry =>
        some { s with ds_saved := s.auto_reconnect, auto_reconnect := false,
                      threads := setPC s.threads tid TPC.dsClose }
    | TPC.dsClose =>
        some { s with connected := false, threads := setPC s.threads tid TPC.dsJoin }
    | TPC.dsJoin =>
        some { s with threads := setPC s.threads tid TPC.dsRestore }
    | TPC.dsRestore =>
        some { s with auto_reconnect := s.ds_saved,
                      threads := setPC s.threads tid TPC.done }
    | TPC.done => none

/-- Run an interleaving (a list of `(thread, choice)` labels). -/
def runSchedule (s : CSt) : List (Nat × Nat) → Option CSt
  | [] => some s
  | (tid, c) :: rest =>
      match threadStep s tid c with
      | some s1 => runSchedule s1 rest
      | none => none

/-- Number of connection attempts currently in progress. -/
def attemptsInProgress (s : CSt) : Nat :=
  s.threads.countP (fun pc => pc = TPC.carWait)

/-! ## Data feed (`src/connectors/ibkr/data_feed.py`)

`IBKRDataFeed` keeps `self.market_data : dict[int, dict]`; `tickPrice` maps field
codes 1/2/4 to bid/ask/last, `IBKRWrapper.error` (client.py lines 25-54) only
logs, and `get_last_price` (lines 296-327) polls one snapshot subscription.  The
callbacks delivered while `get_last_price` is polling are modelled as an explicit
event list. -/

/-- Per-subscription quote record (`self.market_data[req_id]`, lines 74-82). -/
structure Quote where
  symbol : String
  last_price : Option ℚ
  bid : Option ℚ
  ask : Option ℚ
  volume : Option Int
  last_timestamp : Option Int
  raw_ticks : List (Int × ℚ)
  deriving Repr, DecidableEq

/-- Market-data state of `IBKRDataFeed`, together with the log of outbound
transport calls (`reqMktData` as (req id, data type, snapshot), `cancelMktData`
as req id) for observing what is sent to the gateway. -/
structure FeedState where
  market_data : List (Nat × Quote)
  req_id_counter : Nat
  reqMktDataCalls : List (Nat × String × Bool)
  cancelMktDataCalls : List Nat
  deriving Repr, DecidableEq

/-- `request_market_data` (lines 45-92): allocate a fresh id, initialize the
quote record with every price field `None`, send `reqMktData`. -/
def requestMarketData (s : FeedState) (symbol : String) (data_type : String)
    (snapshot : Bool) : Nat × FeedState :=
  let req_id := s.req_id_counter + 1
  let q : Quote :=
    { symbol := symbol
      last_price := none
      bid := none
      ask := none
      volume := none
      last_timestamp := none
      raw_ticks := [] }
  (req_id,
    { s with
      req_id_counter := req_id
      market_data := setK s.market_data req_id q
      reqMktDataCalls := s.reqMktDataCalls ++ [(req_id, data_type, snapshot)] })

/-- `cancel_market_data` (lines 94-110): send `cancelMktData` and drop the record. -/
def cancelMarketData (s : FeedState) (req_id : Nat) : FeedState :=
  { s with
    cancelMktDataCalls := s.cancelMktDataCalls ++ [req_id]
    market_data := s.market_data.filter (fun p => p.1 ≠ req_id) }

/-- `tickPrice` callback (lines 200-234): only field codes 1 (bid), 2 (ask) and
4 (last) update a price attribute; every tick is appended to the raw log. -/
def tickPriceCB (s : FeedState) (req_id : Nat) (field : Int) (price : ℚ)
    (now : Int) : FeedState :=
  match lookupK s.market_data req_id with
  | none => s
  | some q =>
    let q1 :=
      if field = 1 then { q with bid := some price }
      else if field = 2 then { q with ask := some price }
      else if field = 4 then { q with last_price := some price, last_timestamp := some now }
      else q
    let q2 : Quote := { q1 with raw_ticks := q1.raw_ticks ++ [(field, price)] }
    { s with market_data := setK s.market_data req_id q2 }

/-- `error` callback (`IBKRWrapper.error`, client.py lines 25-54, inherited by
the data feed): the message is logged and nothing else happens — no state
change, no fallback request. -/
def errorCB (s : FeedState) (req_id : Int) (code : Int) (msg : String) : FeedState :=
  s

/-- A callback delivered by the transport while `get_last_price` is polling. -/
inductive FeedEvent
  | tickPrice (field : Int) (price : ℚ)
  | error (code : Int) (msg : String)
  deriving Repr, DecidableEq

/-- Deliver one event for request `req_id`. -/
def applyFeedEvent (s : FeedState) (req_id : Nat) (now : Int) : FeedEvent → FeedState
  | FeedEvent.tickPrice field price => tickPriceCB s req_id field price now
  | FeedEvent.error code msg => errorCB s req_id code msg

/-- The polling loop of `get_last_price` (lines 317-327): between sleeps, check
whether `last_price` is set; the remaining event list stands for the callbacks
that will still arrive before the timeout (an empty list: the timeout elapses,
the request is cancelled and `None` is returned). -/
def pollLastPrice (req_id : Nat) (now : Int) :
    FeedState → List FeedEvent → Option ℚ × FeedState
  | s, [] =>
      match lookupK s.market_data req_id with
      | some q =>
          match q.last_price with
          | some p => (some p, cancelMarketData s req_id)
          | none => (none, cancelMarketData s req_id)
      | none => (none, cancelMarketData s req_id)
  | s, e :: rest =>
      match lookupK s.market_data req_id with
      | some q =>
          match q.last_price with
          | some p => (some p, cancelMarketData s req_id)
          | none => pollLastPrice req_id now (applyFeedEvent s req_id now e) rest
      | none => pollLastPrice req_id now (applyFeedEvent s req_id now e) rest

/-- `get_last_price(symbol, timeout)` (lines 296-327).  Note the signature: there
is no `acceptDelayed` parameter and the result is a bare optional price.  If some
existing subscription for the symbol already has a last price, return it;
otherwise issue one snapshot request (empty = real-time data type) and poll. -/
def getLastPrice (s : FeedState) (symbol : String) (events : List FeedEvent)
    (now : Int) : Option ℚ × FeedState :=
  match s.market_data.find? (fun p => p.2.symbol = symbol ∧ p.2.last_price.isSome) with
  | some p => (p.2.last_price, s)
  | none =>
      let (req_id, s1) := requestMarketData s symbol "" true
      pollLastPrice req_id now s1 events

/-! ## Data harvester (`src/data/storage/database_storage.py`)

`DataHarvester._store_bars` (lines 191-378) runs under `self._lock` inside one
database transaction.  The three tables are lists of row structures; the
PostgreSQL serial behind `harvest_log.id` is a sequence, which does not roll
back with the transaction, hence the separate `next_log_id` field.  Vendor bars
are dicts: an `Option` field set to `none` models an absent key (then
`float(bar['open'])` raises `KeyError`; `bar.get('open', 0)` yields the
default).  A database exception escaping the per-bar loop is modelled at the
final commit via the `commitFails` flag. -/

/-- The `date` entry of a vendor bar, as consumed by `_parse_bar_timestamp`
(lines 380-420).  `dt` covers a `datetime` instance and any string one of the
supported formats parses (both yield a definite instant); `num` is an int/float
epoch, milliseconds when above `1e10`; `badStr` is a string no branch accepts
(the raised `ValueError` is caught and the fetch time is used); `missing` is an
absent key (the `KeyError` is likewise caught). -/
inductive BarDate
  | dt (t : Int)
  | num (n : Int)
  | badStr
  | missing
  deriving Repr, DecidableEq

/-- A vendor bar dict.  Price fields are `none` when the key is absent. -/
structure VBar where
  date : BarDate
  «open» : Option ℚ
  high : Option ℚ
  low : Option ℚ
  close : Option ℚ
  volume : Option ℚ
  deriving Repr, DecidableEq

/-- `_parse_bar_timestamp` (lines 380-420): never raises; any failure falls back
to `datetime.now()`, i.e. the supplied `now`. -/
def parseBarTimestamp (b : VBar) (now : Int) : Int :=
  match b.date with
  | BarDate.dt t => t
  | BarDate.num n => if n > 10000000000 then n / 1000 else n
  | BarDate.badStr => now
  | BarDate.missing => now

/-- Whether the bar's date parses without the fetch-time fallback (so the stored
timestamp does not depend on when the harvest ran). -/
def dateParses (b : VBar) : Bool :=
  match b.date with
  | BarDate.dt _ => true
  | BarDate.num _ => true
  | BarDate.badStr => false
  | BarDate.missing => false

/-- `_calculate_data_quality` (lines 422-446), with Python floats as exact
rationals. -/
def calculateDataQuality (b : VBar) : ℚ :=
  let q : ℚ := 1
  let q := if b.«open».isNone ∨ b.high.isNone ∨ b.low.isNone ∨ b.close.isNone
           then q - 3/10 else q
  let q := if b.high.getD 0 ≤ 0 ∨ b.low.getD 0 ≤ 0 then q - 3/10 else q
  let q := if b.high.getD 0 < b.low.getD 0 then q - 1/2 else q
  let q := if b.high.getD 0 < max (b.«open».getD 0) (b.close.getD 0) then q - 1/5 else q
  let q := if b.low.getD 0 > min (b.«open».getD 0) (b.close.getD 0) then q - 1/5 else q
  max 0 q

/-- Substring test on character lists (`pat in s` in Python). -/
def containsSub : List Char → List Char → Bool
  | hay, pat =>
    if pat.isPrefixOf hay then true
    else match hay with
      | [] => false
      | _ :: t => containsSub t pat

/-- The first whitespace-separated token (`s.split()[0]` in Python, with the
space character standing for whitespace). -/
def firstToken (cs : List Char) : List Char :=
  (cs.dropWhile (fun c => c = ' ')).takeWhile (fun c => c ≠ ' ')

/-- `int(token)` on a decimal token; `none` where Python would raise. -/
def digitsToNat? (cs : List Char) : Option Nat :=
  if cs ≠ [] ∧ cs.all Char.isDigit then
    some (cs.foldl (fun n c => n * 10 + (c.toNat - 48)) 0)
  else none

/-- `_determine_symbol_type` (lines 448-456). -/
def determineSymbolType (symbol : String) : String :=
  let cs := symbol.data
  if cs.contains '.' then "stock"
  else if cs.length = 6 ∧ cs.getD 3 ' ' = '/' then "forex"
  else if ("BTC".data).isPrefixOf cs ∨ ("ETH".data).isPrefixOf cs then "crypto"
  else "stock"

/-- A `price_data` row (lines 58-83).  `is_adjusted` keeps its column default
since `_store_bars` never sets it. -/
structure PriceRow where
  symbol : String
  timeframe : String
  timestamp : Int
  «open» : ℚ
  high : ℚ
  low : ℚ
  close : ℚ
  volume : ℚ
  data_type : String
  source : String
  created_at : Int
  updated_at : Option Int
  is_adjusted : Bool
  data_quality : ℚ
  deriving Repr, DecidableEq

/-- The deduplication key of `uix_price_data` (line 77). -/
def priceKey (r : PriceRow) : String × String × Int × String :=
  (r.symbol, r.timeframe, r.timestamp, r.data_type)

/-- A `symbols_meta` row (lines 86-97), restricted to the columns
`_store_bars` touches. -/
structure MetaRow where
  symbol : String
  type : String
  first_date : Option Int
  last_update : Int
  update_count : Int
  deriving Repr, DecidableEq

/-- A `harvest_log` row (lines 100-114). -/
structure LogRow where
  id : Nat
  symbol : String
  timeframe : String
  data_type : String
  start_time : Int
  end_time : Option Int
  records_processed : Option Nat
  records_added : Option Nat
  records_updated : Option Nat
  status : String
  error : Option String
  deriving Repr, DecidableEq

/-- The database. -/
structure DB where
  price_data : List PriceRow
  symbols_meta : List MetaRow
  harvest_log : List LogRow
  next_log_id : Nat
  deriving Repr, DecidableEq

/-- The stats dict returned by `_store_bars` (lines 210-216). -/
structure HarvestStats where
  processed : Nat
  added : Nat
  updated : Nat
  errors : Nat
  status : String
  deriving Repr, DecidableEq

/-- Accumulator of the per-bar loop: the working `price_data` rows plus counters. -/
structure FoldSt where
  rows : List PriceRow
  processed : Nat
  added : Nat
  updated : Nat
  errors : Nat
  deriving Repr, DecidableEq

/-- The update fallback of the insert path (lines 289-306): rewrite the
non-key columns of every row matching the bar's deduplication key, stamping
`updated_at`. -/
def updateRow (symbol bar_size data_type : String) (now : Int) (b : VBar)
    (r : PriceRow) : PriceRow :=
  if priceKey r = (symbol, bar_size, parseBarTimestamp b now, data_type) then
    { r with
      «open» := b.«open».getD 0
      high := b.high.getD 0
      low := b.low.getD 0
      close := b.close.getD 0
      volume := b.volume.getD 0
      data_quality := calculateDataQuality b
      updated_at := some now }
  else r

/-- One iteration of the per-bar loop (lines 261-312).  `stats["processed"]`
always increments; building `bar_values` raises (caught, counted as an error)
iff one of open/high/low/close is absent; otherwise the row is inserted, or — on
the uniqueness-constraint violation — the non-key columns of the matching row
are updated (`update_values` excludes symbol/timeframe/timestamp/data_type/
source/created_at and adds `updated_at`). -/
def processOneBar (symbol bar_size data_type : String) (now : Int) (st : FoldSt)
    (b : VBar) : FoldSt :=
  let st := { st with processed := st.processed + 1 }
  let ts := parseBarTimestamp b now
  if b.«open».isNone ∨ b.high.isNone ∨ b.low.isNone ∨ b.close.isNone then
    { st with errors := st.errors + 1 }
  else
    let row : PriceRow :=
      { symbol := symbol
        timeframe := bar_size
        timestamp := ts
        «open» := b.«open».getD 0
        high := b.high.getD 0
        low := b.low.getD 0
        close := b.close.getD 0
        volume := b.volume.getD 0
        data_type := data_type
        source := "IBKR"
        created_at := now
        updated_at := none
        is_adjusted := false
        data_quality := calculateDataQuality b }
    if st.rows.any (fun r => priceKey r = (symbol, bar_size, ts, data_type)) then
      { st with rows := st.rows.map (updateRow symbol bar_size data_type now b),
                updated := st.updated + 1 }
    else
      { st with rows := st.rows ++ [row], added := st.added + 1 }

/-- The whole per-bar loop. -/
def processBars (symbol bar_size data_type : String) (now : Int) :
    FoldSt → List VBar → FoldSt
  | st, [] => st
  | st, b :: rest =>
      processBars symbol bar_size data_type now
        (processOneBar symbol bar_size data_type now st b) rest

/-- `_store_bars` (lines 191-378).  `commitFails = true` injects a database
exception at `transaction.commit()`: the except-branch rolls the transaction
back (the log-row insert included; the id sequence does not rewind), then tries
to mark the log row failed — an update that matches nothing, since that row was
just rolled back — and returns the stats with status `failed`. -/
def storeBars (db : DB) (symbol bar_size data_type : String) (bars : List VBar)
    (now : Int) (commitFails : Bool) : HarvestStats × DB :=
  if bars.isEmpty then
    ({ processed := 0, added := 0, updated := 0, errors := 0, status := "empty" }, db)
  else
    -- insert the harvest-log row (status in_progress), lines 219-237
    let log_id := db.next_log_id
    let logRow : LogRow :=
      { id := log_id
        symbol := symbol
        timeframe := bar_size
        data_type := data_type
        start_time := now
        end_time := none
        records_processed := some 0
        records_added := some 0
        records_updated := some 0
        status := "in_progress"
        error := none }
    let db1 : DB :=
      { db with harvest_log := db.harvest_log ++ [logRow], next_log_id := log_id + 1 }
    -- symbols_meta upsert, lines 239-258
    let db2 : DB :=
      if db1.symbols_meta.any (fun m => m.symbol = symbol) then
        let updMeta := fun (m : MetaRow) =>
          if m.symbol = symbol then
            { m with last_update := now, update_count := m.update_count + 1 }
          else m
        { db1 with symbols_meta := db1.symbols_meta.map updMeta }
      else
        let newMeta : MetaRow :=
          { symbol := symbol
            type := determineSymbolType symbol
            first_date := none
            last_update := now
            update_count := 1 }
        { db1 with symbols_meta := db1.symbols_meta ++ [newMeta] }
    -- per-bar loop, lines 261-312
    let st := processBars symbol bar_size data_type now
      { rows := db2.price_data, processed := 0, added := 0, updated := 0, errors := 0 }
      bars
    let db3 : DB := { db2 with price_data := st.rows }
    -- first_date update, lines 314-330
    let db4 : DB :=
      match (bars.map (fun b => parseBarTimestamp b now)).min? with
      | some oldest =>
          let updFd := fun (m : MetaRow) =>
            if m.symbol = symbol ∧ (m.first_date.getD (oldest + 1) > oldest) then
              { m with first_date := some oldest }
            else m
          { db3 with symbols_meta := db3.symbols_meta.map updFd }
      | none => db3
    -- final harvest-log update, lines 332-344
    let finalStatus := if st.errors = 0 then "success" else "partial"
    let updLog := fun (lr : LogRow) =>
      if lr.id = log_id then
        { lr with
          end_time := some now
          records_processed := some st.processed
          records_added := some st.added
          records_updated := some st.updated
          status := finalStatus
          error := if st.errors > 0 then some "errors encountered" else none }
      else lr
    let db5 : DB := { db4 with harvest_log := db4.harvest_log.map updLog }
    if commitFails then
      -- lines 350-374: rollback, then the orphaned follow-up log update
      let dbR : DB := { db with next_log_id := log_id + 1 }
      let updFail := fun (lr : LogRow) =>
        if lr.id = log_id then
          { lr with end_time := some now, status := "failed", error := some "db error" }
        else lr
      let dbF : DB := { dbR with harvest_log := dbR.harvest_log.map updFail }
      ({ processed := st.processed, added := st.added, updated := st.updated,
         errors := st.errors, status := "failed" }, dbF)
    else
      -- line 347: commit; the returned stats keep their initial "success" status
      ({ processed := st.processed, added := st.added, updated := st.updated,
         errors := st.errors, status := "success" }, db5)

/-- `harvest_data` (lines 146-189): the transport interaction is abstracted to
the bar list it delivered; an empty list returns the `no_data` dict (which
carries no counts — modelled as zeros). -/
def harvestData (db : DB) (symbol bar_size what_to_show : String)
    (bars : List VBar) (now : Int) (commitFails : Bool) : HarvestStats × DB :=
  if bars.isEmpty then
    ({ processed := 0, added := 0, updated := 0, errors := 0, status := "no_data" }, db)
  else
    storeBars db symbol bar_size what_to_show bars now commitFails

/-! ## Integrity verification (`database_storage.py`, lines 645-784)

`verify_data_integrity` pulls the ordered `(timestamp, open, high, low, close,
volume)` rows for a symbol/timeframe/range and scans them; the SQL `ORDER BY
timestamp` is modelled by the caller handing over the ordered selection. -/

/-- One selected row. -/
structure VRow where
  timestamp : Int
  «open» : ℚ
  high : ℚ
  low : ℚ
  close : ℚ
  volume : ℚ
  deriving Repr, DecidableEq

/-- A reported gap (lines 731-736); the formatted message is not modelled. -/
structure GapRec where
  start : Int
  «end» : Int
  missing_bars : Int
  duration_seconds : Int
  deriving Repr, DecidableEq

/-- A reported anomaly (lines 745-749); the prices stand in for the message text. -/
structure AnomalyRec where
  timestamp : Int
  type : String
  high : ℚ
  low : ℚ
  deriving Repr, DecidableEq

/-- The verification result (lines 705-713). -/
structure VerifyResult where
  total_bars : Nat
  timeframe_seconds : Nat
  gaps : List GapRec
  anomalies : List AnomalyRec
  first_date : Option Int
  last_date : Option Int
  status : String
  deriving Repr, DecidableEq

/-- `_timeframe_to_seconds` (lines 763-784).  A leading token `int()` cannot
parse raises in the source; this model is only applied to numeric tokens, where
the digit fold agrees. -/
def timeframeToSeconds (timeframe : String) : Nat :=
  let tf := timeframe.data.map Char.toLower
  let num := (digitsToNat? (firstToken tf)).getD 0
  if containsSub tf ("sec".data) then num
  else if containsSub tf ("min".data) then num * 60
  else if containsSub tf ("hour".data) then num * 3600
  else if containsSub tf ("day".data) then num * 86400
  else if containsSub tf ("week".data) then num * 604800
  else 86400

/-- The gap-scan condition (line 729): the inter-bar delta exceeds
`(expected + expected * 0.05) * 1.5`, i.e. `1.575 ×` the nominal seconds. -/
def gapThresholdExceeded (e : Nat) (diff : Int) : Bool :=
  (diff : ℚ) > ((e : ℚ) + (e : ℚ) * (5/100)) * (3/2)

/-- The gap scan over consecutive row pairs (lines 718-737);
`missing_bars = int(diff / expected) - 1`. -/
def gapsOf (e : Nat) (data : List VRow) : List GapRec :=
  (data.zip data.tail).filterMap (fun pc =>
    let diff : Int := pc.2.timestamp - pc.1.timestamp
    if gapThresholdExceeded e diff then
      some { start := pc.1.timestamp
             «end» := pc.2.timestamp
             missing_bars := diff / (e : Int) - 1
             duration_seconds := diff }
    else none)

/-- The anomaly scan (lines 740-749): flag every row with `high < low`. -/
def anomaliesOf (data : List VRow) : List AnomalyRec :=
  data.filterMap (fun b =>
    if b.high < b.low then
      some { timestamp := b.timestamp, type := "high_below_low",
             high := b.high, low := b.low }
    else none)

/-- `verify_data_integrity` (lines 645-761) on the ordered selection.  The empty
selection returns the `no_data` dict (no counts in the source — zeros here); the
status cascade of lines 751-759 is kept verbatim. -/
def verifyIntegrity (data : List VRow) (timeframe : String) : VerifyResult :=
  if data.isEmpty then
    { total_bars := 0, timeframe_seconds := 0, gaps := [], anomalies := [],
      first_date := none, last_date := none, status := "no_data" }
  else
    let e := timeframeToSeconds timeframe
    let gaps := gapsOf e data
    let anomalies := anomaliesOf data
    let status := "verified"
    let status := if gaps.isEmpty then status else "gaps_found"
    let status := if anomalies.isEmpty then status else "anomalies_found"
    let status := if gaps.isEmpty ∨ anomalies.isEmpty then status else "issues_found"
    { total_bars := data.length
      timeframe_seconds := e
      gaps := gaps
      anomalies := anomalies
      first_date := (data.map VRow.timestamp).head?
      last_date := (data.map VRow.timestamp).getLast?
      status := status }

/-! ## Theorems -/

/-- Helper: after `execDetails` for `exec_id`, the stored execution record
carries no commission data, whatever the prior state. -/
theorem execDetails_stores_without_commission (s : OMState) (order_id : Int)
    (exec_id : String) (time account exchange side : String) (shares price : ℚ)
    (perm_id client_id liquidation : Int) (cum_qty avg_price : ℚ) :
    (lookupK (execDetailsCB s order_id exec_id time account exchange side shares
        price perm_id client_id liquidation cum_qty avg_price).executions exec_id).map
      (fun ex => (ex.commission, ex.commission_currency, ex.realized_pnl))
      = some (none, none, none) := by
  unfold execDetailsCB
  cases h : lookupK s.orders order_id <;>
    simp [h, lookupK_setK_self]

/-- C1 counterexample: a status callback delivering `Filled` stores a complete
order, but a subsequent `Submitted` callback for the same id overwrites the
stored status and resets `is_complete` to false — `Filled` is not terminal. -/
theorem orderStatus_filled_not_terminal :
    (lookupK (orderStatusCB (⟨[], []⟩ : OMState) 1 "Filled" 100 0 10 0).orders 1).map
        (fun r => (r.status, r.is_complete)) = some ("Filled", true) ∧
    (lookupK (orderStatusCB (orderStatusCB (⟨[], []⟩ : OMState) 1 "Filled" 100 0 10 0)
          1 "Submitted" 100 0 10 1).orders 1).map
        (fun r => (r.status, r.is_complete)) = some ("Submitted", false) := by
  constructor <;> rfl

/-- C1 (amended): every `orderStatus` callback is applied unconditionally — the
stored status always becomes the delivered status, and `is_complete` is recomputed
as membership of the delivered status in `{Filled, Cancelled, ApiCancelled}`; in
particular a callback with a non-terminal status after a `Filled`/`Cancelled`
one overwrites the stored status and resets `is_complete`. -/
theorem orderStatus_is_unconditional_upsert (s : OMState) (order_id : Int)
    (status : String) (filled remaining avg_fill_price : ℚ) (now : Int) :
    (lookupK (orderStatusCB s order_id status filled remaining avg_fill_price
        now).orders order_id).map (fun r => (r.status, r.is_complete))
      = some (status, completingStatuses.contains status) := by
  cases h : lookupK s.orders order_id <;>
    simp [orderStatusCB, h, lookupK_setK_self]

/-- C2 counterexample: a `nextValidId` callback resets the counter to the
delivered value, so the interleaving get / nextValid 0 / get hands out the id 1
twice — the issued ids are neither distinct nor strictly increasing. -/
theorem reqId_reused_after_nextValidId :
    (runReqEvents (⟨0⟩ : ClientIdState)
        [ReqEvent.getId, ReqEvent.nextValid 0, ReqEvent.getId]).1 = [1, 1] ∧
    ¬ (runReqEvents (⟨0⟩ : ClientIdState)
        [ReqEvent.getId, ReqEvent.nextValid 0, ReqEvent.getId]).1.Nodup := by
  constructor
  · rfl
  · decide

/-- Helper: with only `get_next_req_id` events, every issued id strictly exceeds
the starting counter value. -/
theorem runReqEvents_ids_above_start (s : ClientIdState) (evs : List ReqEvent)
    (h : ∀ e ∈ evs, e = ReqEvent.getId) :
    ∀ x ∈ (runReqEvents s evs).1, s.req_id < x := by
  induction evs generalizing s with
  | nil => simp [runReqEvents]
  | cons e rest ih =>
    have he : e = ReqEvent.getId := h e (by simp)
    subst he
    have hrest : ∀ e ∈ rest, e = ReqEvent.getId := fun e hm => h e (by simp [hm])
    intro x hx
    simp only [runReqEvents, getNextReqId] at hx
    rcases List.mem_cons.mp hx with h1 | h1
    · omega
    · have := ih (⟨s.req_id + 1⟩ : ClientIdState) hrest x h1
      simp at this
      omega

/-- C2 (amended): `get_next_req_id` is a lock-protected counter, so in any
interleaving containing no `nextValidId` callback the issued ids are strictly
increasing (hence pairwise distinct); a `nextValidId` callback overwrites the
counter with the gateway-supplied value, and when that value is below the
current counter, previously issued ids are reused. -/
theorem reqIds_strictly_increase_without_nextValidId (s : ClientIdState)
    (evs : List ReqEvent) (h : ∀ e ∈ evs, e = ReqEvent.getId) :
    (runReqEvents s evs).1.Pairwise (· < ·) := by
  induction evs generalizing s with
  | nil => simp [runReqEvents]
  | cons e rest ih =>
    have he : e = ReqEvent.getId := h e (by simp)
    subst he
    have hrest : ∀ e ∈ rest, e = ReqEvent.getId := fun e hm => h e (by simp [hm])
    simp only [runReqEvents, getNextReqId]
    refine List.pairwise_cons.mpr ⟨?_, ih _ hrest⟩
    intro y hy
    have := runReqEvents_ids_above_start (⟨s.req_id + 1⟩ : ClientIdState) rest hrest y hy
    simp at this
    omega

/-- Witness for the amended C2 theorem at a concrete trace of two id requests. -/
theorem reqIds_strictly_increase_without_nextValidId_witness :
    (∀ e ∈ [ReqEvent.getId, ReqEvent.getId], e = ReqEvent.getId) ∧
    (runReqEvents (⟨0⟩ : ClientIdState) [ReqEvent.getId, ReqEvent.getId]).1.Pairwise
      (· < ·) :=
  ⟨by decide,
   reqIds_strictly_increase_without_nextValidId (⟨0⟩ : ClientIdState)
     [ReqEvent.getId, ReqEvent.getId] (by decide)⟩

/-- C10: a commission report whose execution id is unknown leaves the whole
order-manager state unchanged (the handler's membership test fails and nothing
else runs), and when the matching execution arrives later, `execDetails` stores
it with empty commission fields — the earlier commission is never attached
retroactively. -/
theorem commissionReport_unknown_exec_is_noop (s : OMState) (exec_id : String)
    (commission realizedPNL : ℚ) (currency : String)
    (h : lookupK s.executions exec_id = none)
    (order_id : Int) (time account exchange side : String) (shares price : ℚ)
    (perm_id client_id liquidation : Int) (cum_qty avg_price : ℚ) :
    commissionReportCB s exec_id commission currency realizedPNL = s ∧
    (lookupK (execDetailsCB (commissionReportCB s exec_id commission currency
          realizedPNL) order_id exec_id time account exchange side shares price
          perm_id client_id liquidation cum_qty avg_price).executions exec_id).map
      (fun ex => (ex.commission, ex.commission_currency, ex.realized_pnl))
      = some (none, none, none) := by
  have hframe : commissionReportCB s exec_id commission currency realizedPNL = s := by
    simp [commissionReportCB, h]
  exact ⟨hframe, by
    rw [hframe]
    exact execDetails_stores_without_commission s order_id exec_id time account
      exchange side shares price perm_id client_id liquidation cum_qty avg_price⟩

/-- Witness for C10 at the empty state and a concrete commission report. -/
theorem commissionReport_unknown_exec_is_noop_witness :
    lookupK (OMState.executions ⟨[], []⟩) "e7" = none ∧
    (commissionReportCB (⟨[], []⟩ : OMState) "e7" 1 "USD" 2 = (⟨[], []⟩ : OMState) ∧
      (lookupK (execDetailsCB (commissionReportCB (⟨[], []⟩ : OMState) "e7" 1 "USD" 2)
            5 "e7" "t" "a" "x" "BOT" 3 7 11 13 0 3 7).executions "e7").map
        (fun ex => (ex.commission, ex.commission_currency, ex.realized_pnl))
        = some (none, none, none)) :=
  ⟨rfl, commissionReport_unknown_exec_is_noop (⟨[], []⟩ : OMState) "e7" 1 2 "USD" rfl
    5 "t" "a" "x" "BOT" 3 7 11 13 0 3 7⟩

/-- Helper: setting a thread's program point is visible at that thread's slot. -/
theorem setPC_get_self (ts : List TPC) (tid : Nat) (pc : TPC) (h : tid < ts.length) :
    (setPC ts tid pc).get? tid = some pc := by
  simp [setPC, List.get?_set, h]

/-- C6 counterexample: an interleaving in which a deliberate
`disconnect_and_stop` runs to completion (thread 1) while a drop-triggered
reconnect is pending (thread 0), after which the restored `auto_reconnect`
lets the freshly spawned client thread (thread 2) start a second
`connect_and_run` while thread 0 is still waiting on its own attempt: the final
state has two connection attempts in progress concurrently. -/
theorem disconnect_schedule_with_two_concurrent_attempts :
    runSchedule
        ({ auto_reconnect := true, connected := true, ds_saved := false,
           threads := [TPC.rcRun, TPC.dsEntry] } : CSt)
        [(0, 1), (0, 0), (0, 0), (1, 0), (1, 0), (1, 0), (1, 0), (0, 0), (0, 0),
         (0, 0), (2, 0), (2, 0), (2, 0), (2, 0), (2, 0), (2, 0)]
      = some { auto_reconnect := true, connected := false, ds_saved := true,
               threads := [TPC.carWait, TPC.done, TPC.carWait, TPC.rcRun] } ∧
    attemptsInProgress
        { auto_reconnect := true, connected := false, ds_saved := true,
          threads := [TPC.carWait, TPC.done, TPC.carWait, TPC.rcRun] } = 2 := by
  constructor
  · rfl
  · rfl

/-- C6 (amended): `disconnect_and_stop` does disable auto-reconnect before
closing the transport — its first atomic step clears the flag and only then
reaches the close — but it restores the saved setting after the join, and
`connect_and_run` has no re-entrant guard, so interleavings with two concurrent
connection attempts remain reachable even around a deliberate disconnect. -/
theorem disconnect_disables_reconnect_before_close (s : CSt) (tid : Nat)
    (h : s.threads.get? tid = some TPC.dsEntry) :
    ∃ s1, threadStep s tid 0 = some s1 ∧ s1.auto_reconnect = false ∧
      s1.threads.get? tid = some TPC.dsClose := by
  obtain ⟨hlt, -⟩ := List.get?_eq_some.mp h
  let s1 : CSt := { s with ds_saved := s.auto_reconnect, auto_reconnect := false, threads := setPC s.threads tid TPC.dsClose }
  refine ⟨s1, ?_, rfl, ?_⟩
  · unfold threadStep
    rw [h]
  · exact setPC_get_self s.threads tid TPC.dsClose hlt

/-- Witness for the amended C6 theorem: one thread about to run
`disconnect_and_stop`. -/
theorem disconnect_disables_reconnect_before_close_witness :
    (CSt.threads ⟨true, true, false, [TPC.dsEntry]⟩).get? 0 = some TPC.dsEntry ∧
    ∃ s1, threadStep (⟨true, true, false, [TPC.dsEntry]⟩ : CSt) 0 0 = some s1 ∧
      s1.auto_reconnect = false ∧ s1.threads.get? 0 = some TPC.dsClose :=
  ⟨rfl, disconnect_disables_reconnect_before_close
    (⟨true, true, false, [TPC.dsEntry]⟩ : CSt) 0 rfl⟩

/-- C9 counterexample: with the feed answering a no-entitlement error
(code 10167) and then a delayed last tick (field code 68), `get_last_price`
returns `None` — no delayed fallback exists: the only outbound request is the
original real-time snapshot request, nothing is re-issued against a delayed
data type, and the delayed field code never sets the price. -/
theorem getLastPrice_no_delayed_fallback :
    (getLastPrice (⟨[], 0, [], []⟩ : FeedState) "XYZ"
        [FeedEvent.error 10167 "Requested market data is not subscribed",
         FeedEvent.tickPrice 68 101] 0).1 = none ∧
    (getLastPrice (⟨[], 0, [], []⟩ : FeedState) "XYZ"
        [FeedEvent.error 10167 "Requested market data is not subscribed",
         FeedEvent.tickPrice 68 101] 0).2.reqMktDataCalls = [(1, "", true)] := by
  constructor
  · rfl
  · rfl

/-- Helper: delivering an event never sends a new `reqMktData` call. -/
theorem applyFeedEvent_reqCalls (s : FeedState) (req_id : Nat) (now : Int)
    (e : FeedEvent) :
    (applyFeedEvent s req_id now e).reqMktDataCalls = s.reqMktDataCalls := by
  cases e with
  | tickPrice field price =>
      simp only [applyFeedEvent, tickPriceCB]
      cases lookupK s.market_data req_id <;> simp
  | error code msg => rfl

/-- Helper: an event that is not a field-4 (last) price tick cannot set
`last_price` on the polled subscription. -/
theorem applyFeedEvent_keeps_last_none (s : FeedState) (req_id : Nat) (now : Int)
    (e : FeedEvent) (he : ∀ price, e ≠ FeedEvent.tickPrice 4 price)
    (hq : ∀ q, lookupK s.market_data req_id = some q → q.last_price = none) :
    ∀ q, lookupK (applyFeedEvent s req_id now e).market_data req_id = some q →
      q.last_price = none := by
  cases e with
  | error code msg => exact hq
  | tickPrice field price =>
      intro q hmem
      simp only [applyFeedEvent, tickPriceCB] at hmem
      cases h0 : lookupK s.market_data req_id with
      | none => rw [h0] at hmem; exact hq q hmem
      | some q0 =>
          rw [h0] at hmem
          simp only [lookupK_setK_self, Option.some.injEq] at hmem
          have hf4 : field ≠ 4 := by
            intro hf
            exact he price (by rw [hf])
          have h00 := hq q0 h0
          subst hmem
          by_cases h1 : field = 1
          · simp [h1, h00]
          · by_cases h2 : field = 2
            · simp [h1, h2, h00]
            · simp [h1, h2, hf4, h00]

/-- Helper: the polling loop of `get_last_price` returns `None` and sends no
further `reqMktData` when no delivered event is a real-time last-price tick. -/
theorem pollLastPrice_none_without_last_tick (req_id : Nat) (now : Int)
    (events : List FeedEvent) (s : FeedState)
    (he : ∀ e ∈ events, ∀ price, e ≠ FeedEvent.tickPrice 4 price)
    (hq : ∀ q, lookupK s.market_data req_id = some q → q.last_price = none) :
    (pollLastPrice req_id now s events).1 = none ∧
    (pollLastPrice req_id now s events).2.reqMktDataCalls = s.reqMktDataCalls := by
  induction events generalizing s with
  | nil =>
      cases h0 : lookupK s.market_data req_id with
      | none => simp [pollLastPrice, h0, cancelMarketData]
      | some q => simp [pollLastPrice, h0, hq q h0, cancelMarketData]
  | cons e rest ih =>
      have he0 : ∀ price, e ≠ FeedEvent.tickPrice 4 price :=
        fun price => he e (by simp) price
      have herest : ∀ e ∈ rest, ∀ price, e ≠ FeedEvent.tickPrice 4 price :=
        fun e hm price => he e (by simp [hm]) price
      have hq1 := applyFeedEvent_keeps_last_none s req_id now e he0 hq
      have hrec := ih (applyFeedEvent s req_id now e) herest hq1
      rw [applyFeedEvent_reqCalls] at hrec
      cases h0 : lookupK s.market_data req_id with
      | none => simpa [pollLastPrice, h0] using hrec
      | some q => simpa [pollLastPrice, h0, hq q h0] using hrec

/-- C9 (amended): `get_last_price(symbol, timeout)` takes no `acceptDelayed`
flag and returns a bare optional price.  If no prior subscription for the symbol
holds a last price, it sends exactly one snapshot request for the real-time data
type (the empty string) and never re-issues anything on an error: a
no-entitlement error only gets logged, a delayed-range tick (any field code
other than 4) never sets `last_price`, and the call returns `None` when no
real-time last tick arrives before the timeout. -/
theorem getLastPrice_without_realtime_last_returns_none (s : FeedState)
    (symbol : String) (events : List FeedEvent) (now : Int)
    (hs : s.market_data.find?
        (fun p => p.2.symbol = symbol ∧ p.2.last_price.isSome) = none)
    (he : ∀ e ∈ events, ∀ price, e ≠ FeedEvent.tickPrice 4 price) :
    (getLastPrice s symbol events now).1 = none ∧
    (getLastPrice s symbol events now).2.reqMktDataCalls
      = s.reqMktDataCalls ++ [(s.req_id_counter + 1, "", true)] := by
  unfold getLastPrice
  rw [hs]
  have hq : ∀ q, lookupK (requestMarketData s symbol "" true).2.market_data
      (s.req_id_counter + 1) = some q → q.last_price = none := by
    intro q hmem
    simp only [requestMarketData, lookupK_setK_self, Option.some.injEq] at hmem
    subst hmem
    rfl
  have := pollLastPrice_none_without_last_tick (s.req_id_counter + 1) now events
    (requestMarketData s symbol "" true).2 he hq
  simpa [requestMarketData] using this

/-- Witness for the amended C9 theorem: fresh feed state, a no-entitlement
error followed by a delayed tick. -/
theorem getLastPrice_without_realtime_last_returns_none_witness :
    (FeedState.market_data ⟨[], 0, [], []⟩).find?
        (fun p => p.2.symbol = "XYZ" ∧ p.2.last_price.isSome) = none ∧
    (∀ e ∈ [FeedEvent.error 10167 "no entitlement", FeedEvent.tickPrice 68 101],
        ∀ price : ℚ, e ≠ FeedEvent.tickPrice 4 price) ∧
    ((getLastPrice (⟨[], 0, [], []⟩ : FeedState) "XYZ"
        [FeedEvent.error 10167 "no entitlement", FeedEvent.tickPrice 68 101] 5).1 = none ∧
      (getLastPrice (⟨[], 0, [], []⟩ : FeedState) "XYZ"
        [FeedEvent.error 10167 "no entitlement", FeedEvent.tickPrice 68 101] 5).2.reqMktDataCalls
        = [] ++ [(0 + 1, "", true)]) :=
  ⟨rfl, by intro e hm price; simp only [List.mem_cons, List.not_mem_nil, or_false] at hm; rcases hm with h | h <;> subst h <;> simp,
   getLastPrice_without_realtime_last_returns_none (⟨[], 0, [], []⟩ : FeedState)
     "XYZ" [FeedEvent.error 10167 "no entitlement", FeedEvent.tickPrice 68 101] 5
     rfl (by intro e hm price; simp only [List.mem_cons, List.not_mem_nil, or_false] at hm; rcases hm with h | h <;> subst h <;> simp)⟩

/-- Scenario of claim C4: a 3-bar vendor response whose second bar is missing
the required `open` field. -/
def acmeBars : List VBar :=
  [⟨BarDate.dt 100, some 10, some 12, some 9, some 11, some 1000⟩,
   ⟨BarDate.dt 200, none, some 12, some 9, some 11, some 500⟩,
   ⟨BarDate.dt 300, some 11, some 13, some 10, some 12, some 800⟩]

/-- C4 counterexample: for the 3-bar response with one bar missing required
OHLC fields, the counts are processed = 3, added = 2, errors = 1 as claimed,
but the stats dict handed back keeps its initial status `"success"` — only the
harvest-log row is marked `"partial"` — so `status = "partial"` is false. -/
theorem harvest_partial_scenario_status_not_partial :
    (harvestData (⟨[], [], [], 1⟩ : DB) "ACME" "1 day" "TRADES" acmeBars 1000
        false).1.processed = 3 ∧
    (harvestData (⟨[], [], [], 1⟩ : DB) "ACME" "1 day" "TRADES" acmeBars 1000
        false).1.added = 2 ∧
    (harvestData (⟨[], [], [], 1⟩ : DB) "ACME" "1 day" "TRADES" acmeBars 1000
        false).1.errors = 1 ∧
    (harvestData (⟨[], [], [], 1⟩ : DB) "ACME" "1 day" "TRADES" acmeBars 1000
        false).1.status ≠ "partial" := by
  refine ⟨rfl, rfl, rfl, ?_⟩
  decide

/-- C4 (amended): the scenario returns stats `processed = 3, added = 2,
updated = 0, errors = 1` with status `"success"` (the returned stats dict's
status is only ever changed on a database failure), while the committed
harvest-log row for the batch carries status `"partial"` and the final counts. -/
theorem harvest_partial_scenario_log_row :
    (harvestData (⟨[], [], [], 1⟩ : DB) "ACME" "1 day" "TRADES" acmeBars 1000 false).1
      = ⟨3, 2, 0, 1, "success"⟩ ∧
    (harvestData (⟨[], [], [], 1⟩ : DB) "ACME" "1 day" "TRADES" acmeBars 1000
        false).2.harvest_log.map
        (fun lr => (lr.id, lr.status, lr.records_processed, lr.records_added,
          lr.records_updated))
      = [(1, "partial", some 3, some 2, some 0)] := by
  constructor
  · rfl
  · rfl

/-- C5 counterexample: with a database failure at commit, the batch from an
initially empty database leaves the price table empty and returns status
`"failed"`, but no harvest-log row is marked failed — the `in_progress` row was
itself rolled back with the transaction, so the follow-up update matched no
row and the log is empty. -/
theorem storeBars_failure_leaves_no_failed_log_row :
    (storeBars (⟨[], [], [], 1⟩ : DB) "ACME" "1 day" "TRADES"
        [⟨BarDate.dt 100, some 10, some 12, some 9, some 11, some 1000⟩] 1000
        true).1.status = "failed" ∧
    (storeBars (⟨[], [], [], 1⟩ : DB) "ACME" "1 day" "TRADES"
        [⟨BarDate.dt 100, some 10, some 12, some 9, some 11, some 1000⟩] 1000
        true).2.price_data = [] ∧
    (storeBars (⟨[], [], [], 1⟩ : DB) "ACME" "1 day" "TRADES"
        [⟨BarDate.dt 100, some 10, some 12, some 9, some 11, some 1000⟩] 1000
        true).2.harvest_log = [] := by
  refine ⟨rfl, rfl, rfl⟩

/-- C5 (amended): an exception escaping the per-batch storage path (modelled at
the commit) rolls back the whole batch — price table and symbol metadata as
before — and the caller receives stats with status `"failed"`; but the
harvest-log row for the batch is *not* marked failed: the `in_progress` row was
inserted inside the same transaction, so the rollback removes it and the
follow-up failed-update matches no row, leaving the harvest log unchanged. -/
theorem storeBars_failure_rolls_back (db : DB) (symbol bar_size data_type : String)
    (bars : List VBar) (now : Int) (hb : bars ≠ [])
    (hfresh : ∀ lr ∈ db.harvest_log, lr.id ≠ db.next_log_id) :
    (storeBars db symbol bar_size data_type bars now true).1.status = "failed" ∧
    (storeBars db symbol bar_size data_type bars now true).2.price_data
      = db.price_data ∧
    (storeBars db symbol bar_size data_type bars now true).2.symbols_meta
      = db.symbols_meta ∧
    (storeBars db symbol bar_size data_type bars now true).2.harvest_log
      = db.harvest_log := by
  cases bars with
  | nil => exact absurd rfl hb
  | cons b rest =>
    have hmap : ∀ f : LogRow → LogRow, (∀ lr ∈ db.harvest_log, f lr = lr) →
        db.harvest_log.map f = db.harvest_log := by
      intro f hf
      calc db.harvest_log.map f = db.harvest_log.map id :=
            List.map_congr_left (fun lr hlr => hf lr hlr)
        _ = db.harvest_log := List.map_id db.harvest_log
    refine ⟨rfl, rfl, rfl, ?_⟩
    show db.harvest_log.map _ = db.harvest_log
    apply hmap
    intro lr hlr
    simp [hfresh lr hlr]

/-- Witness for the amended C5 theorem at a concrete one-bar batch. -/
theorem storeBars_failure_rolls_back_witness :
    ([⟨BarDate.dt 100, some 10, some 12, some 9, some 11, some 1000⟩] : List VBar) ≠ [] ∧
    (∀ lr ∈ (DB.harvest_log ⟨[], [], [], 1⟩), lr.id ≠ (DB.next_log_id ⟨[], [], [], 1⟩)) ∧
    ((storeBars (⟨[], [], [], 1⟩ : DB) "IBM" "1 min" "TRADES"
        [⟨BarDate.dt 100, some 10, some 12, some 9, some 11, some 1000⟩] 7
        true).1.status = "failed" ∧
      (storeBars (⟨[], [], [], 1⟩ : DB) "IBM" "1 min" "TRADES"
        [⟨BarDate.dt 100, some 10, some 12, some 9, some 11, some 1000⟩] 7
        true).2.price_data = (DB.price_data ⟨[], [], [], 1⟩) ∧
      (storeBars (⟨[], [], [], 1⟩ : DB) "IBM" "1 min" "TRADES"
        [⟨BarDate.dt 100, some 10, some 12, some 9, some 11, some 1000⟩] 7
        true).2.symbols_meta = (DB.symbols_meta ⟨[], [], [], 1⟩) ∧
      (storeBars (⟨[], [], [], 1⟩ : DB) "IBM" "1 min" "TRADES"
        [⟨BarDate.dt 100, some 10, some 12, some 9, some 11, some 1000⟩] 7
        true).2.harvest_log = (DB.harvest_log ⟨[], [], [], 1⟩)) :=
  ⟨by decide, by simp,
   storeBars_failure_rolls_back (⟨[], [], [], 1⟩ : DB) "IBM" "1 min" "TRADES"
     [⟨BarDate.dt 100, some 10, some 12, some 9, some 11, some 1000⟩] 7
     (by decide) (by simp)⟩

/-- Helper: a guarded `filterMap` is a `filter` followed by a `map`. -/
theorem filterMap_guard {α β : Type} (p : α → Bool) (g : α → β) (l : List α) :
    l.filterMap (fun a => if p a then some (g a) else none)
      = (l.filter p).map g := by
  induction l with
  | nil => rfl
  | cons a t ih =>
    by_cases h : p a <;> simp [h, ih]

/-- The consecutive row pairs whose time delta exceeds the scan threshold. -/
def exceedingPairs (e : Nat) (data : List VRow) : List (VRow × VRow) :=
  (data.zip data.tail).filter
    (fun pc => gapThresholdExceeded e (pc.2.timestamp - pc.1.timestamp))

/-- Helper: the gap scan reports exactly the threshold-exceeding pairs. -/
theorem gapsOf_eq_exceedingPairs (e : Nat) (data : List VRow) :
    gapsOf e data = (exceedingPairs e data).map
      (fun pc => { start := pc.1.timestamp, «end» := pc.2.timestamp,
                   missing_bars := (pc.2.timestamp - pc.1.timestamp) / (e : Int) - 1,
                   duration_seconds := pc.2.timestamp - pc.1.timestamp }) := by
  unfold gapsOf exceedingPairs
  exact filterMap_guard _ _ _

/-- Helper: on a nonempty selection the reported gaps are the gap scan's. -/
theorem verifyIntegrity_gaps (data : List VRow) (tf : String) (h : data ≠ []) :
    (verifyIntegrity data tf).gaps = gapsOf (timeframeToSeconds tf) data := by
  cases data with
  | nil => exact absurd rfl h
  | cons a t => rfl

/-- Helper: on a nonempty selection the reported anomalies are the anomaly
scan's. -/
theorem verifyIntegrity_anomalies (data : List VRow) (tf : String) (h : data ≠ []) :
    (verifyIntegrity data tf).anomalies = anomaliesOf data := by
  cases data with
  | nil => exact absurd rfl h
  | cons a t => rfl

/-- C7 counterexample: two bars of the `1 min` timeframe 92 seconds apart: the
delta exceeds 1.5 × the nominal 60 seconds, yet the scan reports no gap at all,
because the code's cutoff is `(60 + 60·0.05) · 1.5 = 94.5` seconds. -/
theorem gap_missed_inside_tolerance_band :
    (verifyIntegrity
        [⟨0, 10, 12, 9, 11, 0⟩, ⟨92, 10, 12, 9, 11, 0⟩] "1 min").gaps = [] ∧
    ((92 : ℚ) - 0) > (3 / 2) * ((timeframeToSeconds "1 min" : ℚ)) := by
  have htf : timeframeToSeconds "1 min" = 60 := by decide
  constructor
  · have hgap : gapThresholdExceeded 60 92 = false := by
      simp only [gapThresholdExceeded, decide_eq_false_iff_not, not_lt]
      norm_num
    have hne : ([⟨0, 10, 12, 9, 11, 0⟩, ⟨92, 10, 12, 9, 11, 0⟩] : List VRow) ≠ [] := by
      simp
    rw [verifyIntegrity_gaps _ _ hne, gapsOf_eq_exceedingPairs]
    simp [exceedingPairs, htf, hgap]
  · rw [htf]
    norm_num

/-- C7 (amended): the scan flags a gap between consecutive stored bars exactly
when the inter-bar delta exceeds `1.5 × (1 + 5%) = 1.575 ×` the timeframe's
nominal seconds; when exactly one consecutive pair exceeds that cutoff, exactly
one gap is reported, with `missing_bars = floor(delta / nominal) - 1`. -/
theorem verifyIntegrity_single_gap (data : List VRow) (tf : String) (p c : VRow)
    (h : exceedingPairs (timeframeToSeconds tf) data = [(p, c)]) :
    (verifyIntegrity data tf).gaps
      = [{ start := p.timestamp, «end» := c.timestamp,
           missing_bars := (c.timestamp - p.timestamp)
             / ((timeframeToSeconds tf : Int)) - 1,
           duration_seconds := c.timestamp - p.timestamp }] := by
  have hne : data ≠ [] := by
    intro h0
    rw [h0] at h
    simp [exceedingPairs] at h
  rw [verifyIntegrity_gaps data tf hne, gapsOf_eq_exceedingPairs, h]
  rfl

/-- Witness for the amended C7 theorem: two `1 min` bars 200 seconds apart give
one gap with `missing_bars = floor(200/60) - 1 = 2`. -/
theorem verifyIntegrity_single_gap_witness :
    exceedingPairs (timeframeToSeconds "1 min")
        [⟨0, 10, 12, 9, 11, 0⟩, ⟨200, 10, 12, 9, 11, 0⟩]
      = [(⟨0, 10, 12, 9, 11, 0⟩, ⟨200, 10, 12, 9, 11, 0⟩)] ∧
    (verifyIntegrity [⟨0, 10, 12, 9, 11, 0⟩, ⟨200, 10, 12, 9, 11, 0⟩] "1 min").gaps
      = [{ start := 0, «end» := 200,
           missing_bars := ((200 : Int) - 0) / ((timeframeToSeconds "1 min" : Int)) - 1,
           duration_seconds := 200 - 0 }] := by
  have htf : timeframeToSeconds "1 min" = 60 := by decide
  have hpair : exceedingPairs (timeframeToSeconds "1 min")
      [(⟨0, 10, 12, 9, 11, 0⟩ : VRow), ⟨200, 10, 12, 9, 11, 0⟩]
      = [(⟨0, 10, 12, 9, 11, 0⟩, ⟨200, 10, 12, 9, 11, 0⟩)] := by
    have hgap : gapThresholdExceeded 60 200 = true := by
      simp only [gapThresholdExceeded, decide_eq_true_eq]
      norm_num
    simp [exceedingPairs, htf, hgap]
  exact ⟨hpair,
    verifyIntegrity_single_gap [⟨0, 10, 12, 9, 11, 0⟩, ⟨200, 10, 12, 9, 11, 0⟩]
      "1 min" ⟨0, 10, 12, 9, 11, 0⟩ ⟨200, 10, 12, 9, 11, 0⟩ hpair⟩

/-- C8: for every bar input whose high is below its low, the quality score is
strictly below 1 and still within the 0–1 range, and the integrity scan flags
every stored row with `high < low` as a `high_below_low` anomaly. -/
theorem quality_below_one_and_anomaly_flagged (b : VBar) (hi lo : ℚ)
    (hh : b.high = some hi) (hl : b.low = some lo) (hlt : hi < lo)
    (tf : String) (data : List VRow) (r : VRow) (hr : r ∈ data)
    (hrl : r.high < r.low) :
    (calculateDataQuality b < 1 ∧ 0 ≤ calculateDataQuality b ∧
      calculateDataQuality b ≤ 1) ∧
    ∃ a ∈ (verifyIntegrity data tf).anomalies,
      a.timestamp = r.timestamp ∧ a.type = "high_below_low" := by
  constructor
  · have key : ∀ x : ℚ, x ≤ 1 / 2 →
        max 0 x < 1 ∧ 0 ≤ max 0 x ∧ max 0 x ≤ 1 := by
      intro x hx
      refine ⟨max_lt (by norm_num) (lt_of_le_of_lt hx (by norm_num)),
        le_max_left 0 x, max_le (by norm_num) (le_trans hx (by norm_num))⟩
    simp only [calculateDataQuality, hh, hl, Option.getD_some, Option.isNone_some]
    apply key
    split_ifs <;> first | contradiction | norm_num
  · have hne : data ≠ [] := List.ne_nil_of_mem hr
    rw [verifyIntegrity_anomalies data tf hne]
    refine ⟨⟨r.timestamp, "high_below_low", r.high, r.low⟩, ?_, rfl, rfl⟩
    apply List.mem_filterMap.mpr
    refine ⟨r, hr, ?_⟩
    rw [if_pos hrl]

/-- Witness for the C8 theorem at a concrete inverted bar and selection. -/
theorem quality_below_one_and_anomaly_flagged_witness :
    ((⟨BarDate.dt 0, some 10, some 9, some 11, some 10, some 0⟩ : VBar).high
        = some 9) ∧
    ((⟨BarDate.dt 0, some 10, some 9, some 11, some 10, some 0⟩ : VBar).low
        = some 11) ∧
    ((9 : ℚ) < 11) ∧
    ((⟨5, 10, 9, 11, 10, 0⟩ : VRow) ∈ [(⟨5, 10, 9, 11, 10, 0⟩ : VRow)]) ∧
    ((⟨5, 10, 9, 11, 10, 0⟩ : VRow).high < (⟨5, 10, 9, 11, 10, 0⟩ : VRow).low) ∧
    ((calculateDataQuality ⟨BarDate.dt 0, some 10, some 9, some 11, some 10, some 0⟩ < 1 ∧
        0 ≤ calculateDataQuality ⟨BarDate.dt 0, some 10, some 9, some 11, some 10, some 0⟩ ∧
        calculateDataQuality ⟨BarDate.dt 0, some 10, some 9, some 11, some 10, some 0⟩ ≤ 1) ∧
      ∃ a ∈ (verifyIntegrity [(⟨5, 10, 9, 11, 10, 0⟩ : VRow)] "1 day").anomalies,
        a.timestamp = (⟨5, 10, 9, 11, 10, 0⟩ : VRow).timestamp ∧
        a.type = "high_below_low") :=
  ⟨rfl, rfl, by norm_num, by simp, by norm_num,
   quality_below_one_and_anomaly_flagged
     ⟨BarDate.dt 0, some 10, some 9, some 11, some 10, some 0⟩ 9 11 rfl rfl
     (by norm_num) "1 day" [(⟨5, 10, 9, 11, 10, 0⟩ : VRow)]
     (⟨5, 10, 9, 11, 10, 0⟩ : VRow) (by simp) (by norm_num)⟩

/-- The deduplication key a bar receives when stored in run conditions `now`. -/
def barKey (symbol bar_size data_type : String) (now : Int) (b : VBar) :
    String × String × Int × String :=
  (symbol, bar_size, parseBarTimestamp b now, data_type)

/-- Helper: a date that parses gives the same timestamp whatever the fetch
time — the fallback is never taken. -/
theorem parseBarTimestamp_of_dateParses (b : VBar) (h : dateParses b = true)
    (n m : Int) : parseBarTimestamp b n = parseBarTimestamp b m := by
  cases hd : b.date with
  | dt t => simp [parseBarTimestamp, hd]
  | num n0 => simp [parseBarTimestamp, hd]
  | badStr => simp [dateParses, hd] at h
  | missing => simp [dateParses, hd] at h

/-- Helper: the `any` membership probe of the insert path, as key membership. -/
theorem any_priceKey_iff (rows : List PriceRow) (k : String × String × Int × String) :
    rows.any (fun r => priceKey r = k) = true ↔ k ∈ rows.map priceKey := by
  simp [List.any_eq_true, List.mem_map]

/-- Helper: the update fallback never changes a row's deduplication key. -/
theorem priceKey_updateRow (symbol bar_size data_type : String) (now : Int)
    (b : VBar) (r : PriceRow) :
    priceKey (updateRow symbol bar_size data_type now b r) = priceKey r := by
  unfold updateRow
  by_cases hk : priceKey r = (symbol, bar_size, parseBarTimestamp b now, data_type)
  · rw [if_pos hk]
    rfl
  · rw [if_neg hk]

/-- Helper: one bar either leaves the key list and `added` untouched (parse
error or conflicting key, i.e. the update path) or appends exactly its own
fresh key and increments `added` (the insert path). -/
theorem processOneBar_cases (symbol bar_size data_type : String) (now : Int)
    (st : FoldSt) (b : VBar) :
    ((processOneBar symbol bar_size data_type now st b).rows.map priceKey
        = st.rows.map priceKey ∧
      (processOneBar symbol bar_size data_type now st b).added = st.added) ∨
    ((processOneBar symbol bar_size data_type now st b).rows.map priceKey
        = st.rows.map priceKey ++ [barKey symbol bar_size data_type now b] ∧
      (processOneBar symbol bar_size data_type now st b).added = st.added + 1 ∧
      barKey symbol bar_size data_type now b ∉ st.rows.map priceKey ∧
      ¬ (b.«open».isNone ∨ b.high.isNone ∨ b.low.isNone ∨ b.close.isNone)) := by
  by_cases herr : (b.«open».isNone ∨ b.high.isNone ∨ b.low.isNone ∨ b.close.isNone : Prop)
  · left
    simp only [processOneBar]
    rw [if_pos herr]
    exact ⟨rfl, rfl⟩
  · by_cases hmem : st.rows.any
        (fun r => priceKey r = (symbol, bar_size, parseBarTimestamp b now, data_type)) = true
    · left
      simp only [processOneBar]
      rw [if_neg herr, if_pos hmem]
      constructor
      · show (st.rows.map (updateRow symbol bar_size data_type now b)).map priceKey
            = st.rows.map priceKey
        rw [List.map_map]
        apply List.map_congr_left
        intro r _
        exact priceKey_updateRow symbol bar_size data_type now b r
      · rfl
    · right
      refine ⟨?_, ?_, ?_, herr⟩
      · simp only [processOneBar]
        rw [if_neg herr, if_neg hmem]
        show (st.rows ++ [_]).map priceKey = _
        rw [List.map_append]
        rfl
      · simp only [processOneBar]
        rw [if_neg herr, if_neg hmem]
      · intro hk
        exact hmem ((any_priceKey_iff st.rows _).mpr hk)

/-- Helper: one bar never removes a key from the working rows. -/
theorem processOneBar_keys_mono (symbol bar_size data_type : String) (now : Int)
    (st : FoldSt) (b : VBar) (k : String × String × Int × String)
    (hk : k ∈ st.rows.map priceKey) :
    k ∈ (processOneBar symbol bar_size data_type now st b).rows.map priceKey := by
  rcases processOneBar_cases symbol bar_size data_type now st b with
    ⟨hr, -⟩ | ⟨hr, -, -, -⟩
  · rw [hr]; exact hk
  · rw [hr]; exact List.mem_append_left _ hk

/-- Helper: keys present in the working rows stay present through the loop. -/
theorem processBars_keys_mono (symbol bar_size data_type : String) (now : Int)
    (bars : List VBar) (st : FoldSt) (k : String × String × Int × String)
    (hk : k ∈ st.rows.map priceKey) :
    k ∈ (processBars symbol bar_size data_type now st bars).rows.map priceKey := by
  induction bars generalizing st with
  | nil => exact hk
  | cons b rest ih =>
    exact ih (processOneBar symbol bar_size data_type now st b)
      (processOneBar_keys_mono symbol bar_size data_type now st b k hk)

/-- Helper: the per-bar loop preserves key distinctness — updates keep the key
list, inserts append a key that was just checked absent. -/
theorem processBars_nodup (symbol bar_size data_type : String) (now : Int)
    (bars : List VBar) (st : FoldSt) (h : (st.rows.map priceKey).Nodup) :
    ((processBars symbol bar_size data_type now st bars).rows.map priceKey).Nodup := by
  induction bars generalizing st with
  | nil => exact h
  | cons b rest ih =>
    apply ih
    rcases processOneBar_cases symbol bar_size data_type now st b with
      ⟨hr, -⟩ | ⟨hr, -, hnot, -⟩
    · rw [hr]; exact h
    · rw [hr]
      refine List.Nodup.append h (List.nodup_singleton _) ?_
      intro a ha hb
      rw [List.mem_singleton] at hb
      subst hb
      exact hnot ha

/-- Helper: after the loop, every bar with its required OHLC fields present has
its key in the working rows (it was inserted, or it conflicted because the key
was already there). -/
theorem processBars_key_present (symbol bar_size data_type : String) (now : Int)
    (bars : List VBar) (st : FoldSt) (b : VBar) (hb : b ∈ bars)
    (hp : ¬ (b.«open».isNone ∨ b.high.isNone ∨ b.low.isNone ∨ b.close.isNone)) :
    barKey symbol bar_size data_type now b
      ∈ (processBars symbol bar_size data_type now st bars).rows.map priceKey := by
  induction bars generalizing st with
  | nil => exact absurd hb (List.not_mem_nil b)
  | cons b0 rest ih =>
    have hstep : processBars symbol bar_size data_type now st (b0 :: rest)
        = processBars symbol bar_size data_type now
            (processOneBar symbol bar_size data_type now st b0) rest := rfl
    rcases List.mem_cons.mp hb with heq | hmem
    · subst heq
      rw [hstep]
      apply processBars_keys_mono
      by_cases hmem2 : st.rows.any
          (fun r => priceKey r = (symbol, bar_size, parseBarTimestamp b now, data_type)) = true
      · exact processOneBar_keys_mono symbol bar_size data_type now st b _
          ((any_priceKey_iff st.rows _).mp hmem2)
      · have hr : (processOneBar symbol bar_size data_type now st b).rows.map priceKey
            = st.rows.map priceKey ++ [barKey symbol bar_size data_type now b] := by
          simp only [processOneBar]
          rw [if_neg hp, if_neg hmem2]
          show (st.rows ++ [_]).map priceKey = _
          rw [List.map_append]
          rfl
        rw [hr]
        exact List.mem_append_right _ (by simp)
    · rw [hstep]
      exact ih (processOneBar symbol bar_size data_type now st b0) hmem

/-- Helper: when every well-formed bar's key is already present, the loop takes
only the error and update paths: `added` stays put and the key list is
unchanged. -/
theorem processBars_no_insert (symbol bar_size data_type : String) (now : Int)
    (bars : List VBar) (st : FoldSt)
    (h : ∀ b ∈ bars, ¬ (b.«open».isNone ∨ b.high.isNone ∨ b.low.isNone ∨ b.close.isNone) →
      barKey symbol bar_size data_type now b ∈ st.rows.map priceKey) :
    (processBars symbol bar_size data_type now st bars).added = st.added ∧
    (processBars symbol bar_size data_type now st bars).rows.map priceKey
      = st.rows.map priceKey := by
  induction bars generalizing st with
  | nil => exact ⟨rfl, rfl⟩
  | cons b rest ih =>
    rcases processOneBar_cases symbol bar_size data_type now st b with
      ⟨hr, ha⟩ | ⟨-, -, hnot, hp⟩
    · have hrest : ∀ c ∈ rest,
          ¬ (c.«open».isNone ∨ c.high.isNone ∨ c.low.isNone ∨ c.close.isNone) →
          barKey symbol bar_size data_type now c
            ∈ (processOneBar symbol bar_size data_type now st b).rows.map priceKey := by
        intro c hc hpc
        rw [hr]
        exact h c (List.mem_cons_of_mem b hc) hpc
      have hih := ih (processOneBar symbol bar_size data_type now st b) hrest
      have hunfold : processBars symbol bar_size data_type now st (b :: rest)
          = processBars symbol bar_size data_type now
              (processOneBar symbol bar_size data_type now st b) rest := rfl
      rw [hunfold, hih.1, hih.2, hr, ha]
      exact ⟨rfl, rfl⟩
    · exact absurd (h b (List.mem_cons_self b rest) hp) hnot

/-- Helper: for a nonempty batch without an injected failure, the stats `added`
count and the stored price rows of `_store_bars` are those of the per-bar loop
run on the incoming price table (the log and metadata writes do not touch it). -/
theorem storeBars_added_price (db : DB) (symbol bar_size data_type : String)
    (bars : List VBar) (now : Int) (hb : bars ≠ []) :
    (storeBars db symbol bar_size data_type bars now false).1.added
      = (processBars symbol bar_size data_type now
          ⟨db.price_data, 0, 0, 0, 0⟩ bars).added ∧
    (storeBars db symbol bar_size data_type bars now false).2.price_data
      = (processBars symbol bar_size data_type now
          ⟨db.price_data, 0, 0, 0, 0⟩ bars).rows := by
  cases bars with
  | nil => exact absurd rfl hb
  | cons b rest =>
    by_cases hmeta : db.symbols_meta.any (fun m => m.symbol = symbol) = true
    all_goals
      cases hmin : ((b :: rest).map (fun b => parseBarTimestamp b now)).min? with
      | none => constructor <;> simp [storeBars, hmeta, hmin]
      | some oldest => constructor <;> simp [storeBars, hmeta, hmin]

/-- C3 counterexample: a bar whose date string parses in no supported format is
stamped with the fetch time, which differs between the two runs, so the second
harvest of the identical response re-inserts it: the second run returns
`added = 1` (not 0) and the price table ends with two rows for the one bar. -/
theorem harvest_twice_readds_fallback_timestamped_bar :
    (storeBars (storeBars (⟨[], [], [], 1⟩ : DB) "ACME" "1 day" "TRADES"
        [⟨BarDate.badStr, some 10, some 12, some 9, some 11, some 0⟩] 100 false).2
        "ACME" "1 day" "TRADES"
        [⟨BarDate.badStr, some 10, some 12, some 9, some 11, some 0⟩] 200
        false).1.added = 1 ∧
    (storeBars (storeBars (⟨[], [], [], 1⟩ : DB) "ACME" "1 day" "TRADES"
        [⟨BarDate.badStr, some 10, some 12, some 9, some 11, some 0⟩] 100 false).2
        "ACME" "1 day" "TRADES"
        [⟨BarDate.badStr, some 10, some 12, some 9, some 11, some 0⟩] 200
        false).2.price_data.length = 2 := by
  exact ⟨rfl, rfl⟩

/-- C3 (amended): harvesting the same (symbol, timeframe, window) twice is
idempotent for every batch whose bar dates parse without the fetch-time
fallback: the second run adds no row (`added = 0`, every insert hits the
uniqueness key and falls back to the update of the non-key columns), the set of
(symbol, timeframe, timestamp, data_type) keys is unchanged by the second run,
and the price table still holds at most one row per key; a bar whose timestamp
falls back to the fetch time is stamped differently on each run and is
re-inserted instead. -/
theorem harvest_twice_idempotent_when_dates_parse (db : DB)
    (symbol bar_size data_type : String) (bars : List VBar) (now1 now2 : Int)
    (hdates : ∀ b ∈ bars, dateParses b = true)
    (hnodup : (db.price_data.map priceKey).Nodup) :
    (storeBars (storeBars db symbol bar_size data_type bars now1 false).2
        symbol bar_size data_type bars now2 false).1.added = 0 ∧
    ((storeBars (storeBars db symbol bar_size data_type bars now1 false).2
        symbol bar_size data_type bars now2 false).2.price_data.map priceKey).Nodup ∧
    (storeBars (storeBars db symbol bar_size data_type bars now1 false).2
        symbol bar_size data_type bars now2 false).2.price_data.map priceKey
      = (storeBars db symbol bar_size data_type bars now1 false).2.price_data.map
          priceKey := by
  cases bars with
  | nil => exact ⟨rfl, hnodup, rfl⟩
  | cons b0 rest =>
    have hb : (b0 :: rest : List VBar) ≠ [] := by simp
    obtain ⟨ha1, hp1⟩ :=
      storeBars_added_price db symbol bar_size data_type (b0 :: rest) now1 hb
    obtain ⟨ha2, hp2⟩ :=
      storeBars_added_price
        (storeBars db symbol bar_size data_type (b0 :: rest) now1 false).2
        symbol bar_size data_type (b0 :: rest) now2 hb
    have hnodup1 : ((processBars symbol bar_size data_type now1
        ⟨db.price_data, 0, 0, 0, 0⟩ (b0 :: rest)).rows.map priceKey).Nodup :=
      processBars_nodup symbol bar_size data_type now1 (b0 :: rest) _ hnodup
    have hpre : ∀ b ∈ (b0 :: rest : List VBar),
        ¬ (b.«open».isNone ∨ b.high.isNone ∨ b.low.isNone ∨ b.close.isNone) →
        barKey symbol bar_size data_type now2 b
          ∈ ((⟨(storeBars db symbol bar_size data_type (b0 :: rest) now1
              false).2.price_data, 0, 0, 0, 0⟩ : FoldSt)).rows.map priceKey := by
      intro b hbmem hp
      show barKey symbol bar_size data_type now2 b
        ∈ (storeBars db symbol bar_size data_type (b0 :: rest) now1
            false).2.price_data.map priceKey
      rw [hp1]
      have hkk : barKey symbol bar_size data_type now2 b
          = barKey symbol bar_size data_type now1 b := by
        unfold barKey
        rw [parseBarTimestamp_of_dateParses b (hdates b hbmem) now2 now1]
      rw [hkk]
      exact processBars_key_present symbol bar_size data_type now1 (b0 :: rest)
        _ b hbmem hp
    obtain ⟨hadd2, hkeys2⟩ :=
      processBars_no_insert symbol bar_size data_type now2 (b0 :: rest)
        (⟨(storeBars db symbol bar_size data_type (b0 :: rest) now1
            false).2.price_data, 0, 0, 0, 0⟩ : FoldSt) hpre
    refine ⟨?_, ?_, ?_⟩
    · rw [ha2, hadd2]
    · rw [hp2, hkeys2]
      show ((storeBars db symbol bar_size data_type (b0 :: rest) now1
          false).2.price_data.map priceKey).Nodup
      rw [hp1]
      exact hnodup1
    · rw [hp2, hkeys2]

/-- Witness for the amended C3 theorem: one bar with a parsing date, harvested
twice from an empty database at two different fetch times. -/
theorem harvest_twice_idempotent_when_dates_parse_witness :
    (∀ b ∈ ([⟨BarDate.dt 100, some 10, some 12, some 9, some 11, some 0⟩] : List VBar),
        dateParses b = true) ∧
    (((DB.price_data ⟨[], [], [], 1⟩).map priceKey).Nodup) ∧
    ((storeBars (storeBars (⟨[], [], [], 1⟩ : DB) "ACME" "1 day" "TRADES"
        [⟨BarDate.dt 100, some 10, some 12, some 9, some 11, some 0⟩] 50 false).2
        "ACME" "1 day" "TRADES"
        [⟨BarDate.dt 100, some 10, some 12, some 9, some 11, some 0⟩] 60
        false).1.added = 0 ∧
      ((storeBars (storeBars (⟨[], [], [], 1⟩ : DB) "ACME" "1 day" "TRADES"
        [⟨BarDate.dt 100, some 10, some 12, some 9, some 11, some 0⟩] 50 false).2
        "ACME" "1 day" "TRADES"
        [⟨BarDate.dt 100, some 10, some 12, some 9, some 11, some 0⟩] 60
        false).2.price_data.map priceKey).Nodup ∧
      (storeBars (storeBars (⟨[], [], [], 1⟩ : DB) "ACME" "1 day" "TRADES"
        [⟨BarDate.dt 100, some 10, some 12, some 9, some 11, some 0⟩] 50 false).2
        "ACME" "1 day" "TRADES"
        [⟨BarDate.dt 100, some 10, some 12, some 9, some 11, some 0⟩] 60
        false).2.price_data.map priceKey
        = (storeBars (⟨[], [], [], 1⟩ : DB) "ACME" "1 day" "TRADES"
            [⟨BarDate.dt 100, some 10, some 12, some 9, some 11, some 0⟩] 50
            false).2.price_data.map priceKey) :=
  ⟨by decide, by simp,
   harvest_twice_idempotent_when_dates_parse (⟨[], [], [], 1⟩ : DB) "ACME" "1 day"
     "TRADES" [⟨BarDate.dt 100, some 10, some 12, some 9, some 11, some 0⟩] 50 60
     (by decide) (by simp)⟩

end IKBR
